import Mathlib

/- Shallow embedding of src/brk.go, a thin command-line wrapper around git.
   Pure string-processing logic is translated directly from the source.
   Results of subprocesses (the git cherry output, per-commit log lookups,
   shell command failures, the current branch name, interactive input)
   enter the model as explicit parameters or oracles, since the program
   only consumes their text. -/

namespace Brk

/-- Whitespace test used by Go's strings.Fields / strings.TrimSpace
(unicode.IsSpace restricted to the Latin-1 range: space, tab, newline,
vertical tab, form feed, carriage return, NEL, NBSP). -/
def isSpaceChar (c : Char) : Bool :=
  c = ' ' || c = '\t' || c = '\n' || c = Char.ofNat 11 || c = Char.ofNat 12 ||
  c = '\r' || c = Char.ofNat 133 || c = Char.ofNat 160

/-- Helper for `trimSpace`: drop leading and trailing whitespace characters. -/
def trimChars (cs : List Char) : List Char :=
  ((cs.dropWhile (fun c => isSpaceChar c)).reverse.dropWhile
    (fun c => isSpaceChar c)).reverse

/-- Go's strings.TrimSpace: remove leading and trailing whitespace. -/
def trimSpace (s : String) : String :=
  String.mk (trimChars s.data)

/-- Helper for `goSplitCh`: split a character list at every occurrence of
`sep`, accumulating the current piece in reversed order in `acc`. -/
def splitChAux (sep : Char) : List Char → List Char → List String
  | [], acc => [String.mk acc.reverse]
  | c :: cs, acc =>
      if c = sep then String.mk acc.reverse :: splitChAux sep cs []
      else splitChAux sep cs (c :: acc)

/-- Go's strings.Split with a single-character separator (the program only
splits on the separator consisting of the newline character). Note that
splitting the empty string yields a one-element list holding the empty
string, exactly as in Go. -/
def goSplitCh (s : String) (sep : Char) : List String :=
  splitChAux sep s.data []

/-- Helper for `goFields`: split around runs of whitespace, accumulating
the current field in reversed order in `acc`. -/
def fieldsAux : List Char → List Char → List String
  | [], acc => if acc.isEmpty then [] else [String.mk acc.reverse]
  | c :: cs, acc =>
      if isSpaceChar c then
        if acc.isEmpty then fieldsAux cs []
        else String.mk acc.reverse :: fieldsAux cs []
      else fieldsAux cs (c :: acc)

/-- Go's strings.Fields: split into whitespace-separated fields, with no
empty fields. -/
def goFields (s : String) : List String :=
  fieldsAux s.data []

/-- Helper for `goContains`: does the list start with `sub`? -/
def startsWithList : List Char → List Char → Bool
  | _, [] => true
  | [], _ :: _ => false
  | a :: as, b :: bs => (a = b) && startsWithList as bs

/-- Helper for `goContains`: does the list contain `sub` as a contiguous
sublist? -/
def containsList (s sub : List Char) : Bool :=
  match s with
  | [] => sub.isEmpty
  | _ :: rest => startsWithList s sub || containsList rest sub

/-- Go's strings.Contains: substring containment. -/
def goContains (s sub : String) : Bool :=
  containsList s.data sub.data

/-- Events produced by the `execute` helper (brk.go lines 87-95): it always
prints and spawns the given shell command, and on failure additionally
prints an error line; it never aborts the calling handler. Whether the
spawned command fails is decided by the external world, modelled as a
`fail` oracle. -/
inductive ExecEvent
  | run (command : String)
  | execError (command : String)
deriving DecidableEq, Repr

/-- The `execute` helper of brk.go: attempt the command, record an error
event when the oracle says the command failed, and return (it never stops
the handler). -/
def execute (fail : String → Bool) (command : String) : List ExecEvent :=
  if fail command then [ExecEvent.run command, ExecEvent.execError command]
  else [ExecEvent.run command]

/-- The shell commands actually attempted in a list of execution events. -/
def attempted (events : List ExecEvent) : List String :=
  events.foldr
    (fun e acc =>
      match e with
      | ExecEvent.run c => c :: acc
      | ExecEvent.execError _ => acc) []

/-- The `update` handler (brk.go lines 146-156) after flag resolution:
three unconditional `execute` calls, in order. -/
def update (fail : String → Bool) (branchName remoteName : String) :
    List ExecEvent :=
  execute fail ("git checkout " ++ branchName) ++
  execute fail ("git fetch " ++ remoteName) ++
  execute fail ("git rebase " ++ remoteName ++ "/" ++ branchName)

/-- The `update` handler including its flag defaults: the branch flag
defaults to "master" and the remote flag to "origin" when unspecified
(modelled as `none`). -/
def updateCmd (fail : String → Bool) (branchFlag remoteFlag : Option String) :
    List ExecEvent :=
  update fail (branchFlag.getD "master") (remoteFlag.getD "origin")

/-- Result of the `split` handler (brk.go lines 228-241): either the
missing-name error plus usage text with no shell command, or the events of
the single branch-creation command. -/
structure SplitResult where
  usageError : Bool
  events : List ExecEvent
deriving DecidableEq, Repr

/-- The `split` handler after flag resolution: an empty branch name prints
an error and the usage text and runs nothing; otherwise one checkout -b
command is executed. -/
def split (fail : String → Bool) (branchName : String) : SplitResult :=
  if branchName = "" then { usageError := true, events := [] }
  else { usageError := false,
         events := execute fail ("git checkout -b " ++ branchName) }

/-- Outcome of the `mv` handler (renameBranch, brk.go lines 257-286). -/
inductive MvOutcome
  | errNewRequired
  | errBothRequired
  | run (command : String)
deriving DecidableEq, Repr

/-- Tail of renameBranch after the positional-argument resolution (brk.go
lines 275-285): default the old name to the current branch, check both
names, and build the single rename command. -/
def mvFinish (current oldName newName : String) : MvOutcome :=
  let oldResolved := if oldName = "" then current else oldName
  if oldResolved = "" ∨ newName = "" then MvOutcome.errBothRequired
  else MvOutcome.run ("git branch -m " ++ oldResolved ++ " " ++ newName)

/-- The `mv` handler (renameBranch) after flag parsing: `oldFlag` and
`newFlag` are the parsed values of -name and -new-name ("" when unset),
`positionals` the remaining arguments, `current` the output of
`git branch --show-current` ("" when that lookup fails). -/
def renameBranch (current oldFlag newFlag : String)
    (positionals : List String) : MvOutcome :=
  if newFlag = "" then
    if positionals.length = 1 then
      mvFinish current current (positionals.headD "")
    else MvOutcome.errNewRequired
  else mvFinish current oldFlag newFlag

/-- Observable events of one iteration of the cherryLog loop (brk.go lines
201-225): the one-line-log subprocess call for a commit hash, the
error message when that call fails, and a rendered listing entry, either
plain (commit unique to the branch) or grey (dimmed, commit already in
master). -/
inductive CherryEvent
  | logCall (commitHash : String)
  | logError (commitHash : String)
  | renderPlain (text : String)
  | renderGrey (text : String)
deriving DecidableEq, Repr

/-- One iteration of the cherryLog loop: split the line into fields, skip
it silently when there are fewer than two, otherwise run `git log
--oneline -n 1` on the second field (modelled by the oracle `log`, `none`
meaning the subprocess failed); on success render "[!master] msg" plainly
for sign "+", render "[master] msg" dimmed for sign "-", and render
nothing for any other sign. -/
def processLine (log : String → Option String) (line : String) :
    List CherryEvent :=
  match goFields line with
  | sign :: commitHash :: _ =>
      match log commitHash with
      | none => [CherryEvent.logCall commitHash, CherryEvent.logError commitHash]
      | some logOutput =>
          let logMessage := trimSpace logOutput
          CherryEvent.logCall commitHash ::
            (if sign = "+" then
              [CherryEvent.renderPlain ("[!master] " ++ logMessage)]
            else if sign = "-" then
              [CherryEvent.renderGrey ("[master] " ++ logMessage)]
            else [])
  | _ => []

/-- The cherryLog loop over all lines, strictly in input order. -/
def cherryEvents (log : String → Option String) : List String → List CherryEvent
  | [] => []
  | line :: rest => processLine log line ++ cherryEvents log rest

/-- The rendered listing entries among the events, in order. -/
def rendered (events : List CherryEvent) : List CherryEvent :=
  events.foldr
    (fun e acc =>
      match e with
      | CherryEvent.renderPlain t => CherryEvent.renderPlain t :: acc
      | CherryEvent.renderGrey t => CherryEvent.renderGrey t :: acc
      | _ => acc) []

/-- Outcome of cherryLog (brk.go lines 176-226) once `git cherry` has
succeeded: either the "No unique commits found" message, or the header
line followed by the loop's events. -/
inductive CherryOutcome
  | noUnique
  | listing (events : List CherryEvent)
deriving DecidableEq, Repr

/-- cherryLog applied to the raw output of a successful `git cherry` run:
trim it, split it on newlines, report "No unique commits found" when the
resulting list is empty, and otherwise print the header and process every
line. -/
def cherryLog (log : String → Option String) (cherryOutput : String) :
    CherryOutcome :=
  let lines := goSplitCh (trimSpace cherryOutput) '\n'
  if lines.length = 0 then CherryOutcome.noUnique
  else CherryOutcome.listing (cherryEvents log lines)

/-- One iteration of the cleanup loop (brk.go lines 296-312): split the
branch line into fields, skip it when there are fewer than two, bind
`branch` to the first field and `age` to the SECOND field only, and prompt
for deletion exactly when that `age` string contains "month" or "year".
Returns the (branch, age) pair prompted for, if any. -/
def cleanupLine (branchInfo : String) : List (String × String) :=
  match goFields branchInfo with
  | branch :: age :: _ =>
      if goContains age "month" || goContains age "year" then [(branch, age)]
      else []
  | _ => []

/-- The per-branch delete prompts issued by cleanup over the raw output of
the branch-listing subprocess, in order. -/
def cleanupPrompts : List String → List (String × String)
  | [] => []
  | branchInfo :: rest => cleanupLine branchInfo ++ cleanupPrompts rest

/-- The cleanup handler once `git branch --format ...` has succeeded:
trim the output, split it on newlines, and walk the lines. -/
def cleanup (branchOutput : String) : List (String × String) :=
  cleanupPrompts (goSplitCh (trimSpace branchOutput) '\n')

/-- Listing phase of the recent handler (brk.go lines 106-124):
either the "No recent branches found." message, or the numbered entries
printed before the prompt. -/
inductive RecentListing
  | noBranches
  | listing (entries : List (Nat × String))
deriving DecidableEq, Repr

/-- The branch list recent works on: the trimmed subprocess output split
on newlines. -/
def recentBranches (output : String) : List String :=
  goSplitCh (trimSpace output) '\n'

/-- The listing phase of recent: report "No recent branches found." when
the split produced an empty list, otherwise number the branches from 1. -/
def recentListing (output : String) : RecentListing :=
  let branches := recentBranches output
  if branches.length = 0 then RecentListing.noBranches
  else RecentListing.listing (branches.enum.map (fun p => (p.1 + 1, p.2)))

/-- Outcome of the selection phase of recent (brk.go lines 126-144). -/
inductive RecentAction
  | noSelection
  | invalid
  | checkout (branch : String)
deriving DecidableEq, Repr

/-- Helper for `parseLeadingInt`: the maximal run of decimal digits at the
front of the list, and the rest. -/
def takeDigits : List Char → List Char × List Char
  | [] => ([], [])
  | c :: rest =>
      if c.isDigit then
        let p := takeDigits rest
        (c :: p.1, p.2)
      else ([], c :: rest)

/-- Numeric value of a digit run. -/
def digitsToNat (ds : List Char) : Nat :=
  ds.foldl (fun n c => 10 * n + (c.toNat - 48)) 0

/-- Model of fmt.Sscanf with the decimal-integer verb: skip leading
whitespace, accept an optional sign followed by at least one digit, and
fail (leaving the scanned variable untouched) otherwise. -/
def parseLeadingInt (s : String) : Option Int :=
  match s.data.dropWhile (fun c => isSpaceChar c) with
  | '-' :: rest =>
      let p := takeDigits rest
      if p.1.isEmpty then none else some (-(digitsToNat p.1 : Int))
  | '+' :: rest =>
      let p := takeDigits rest
      if p.1.isEmpty then none else some ((digitsToNat p.1 : Int))
  | cs =>
      let p := takeDigits cs
      if p.1.isEmpty then none else some ((digitsToNat p.1 : Int))

/-- Selection phase of recent: empty input exits with "No branch
selected."; otherwise the input is scanned into an integer initialised to
-1, rejected with "Invalid selection." when below 1 or above the list
length, and a valid choice checks out the (1-based) chosen branch. -/
def recentSelect (branches : List String) (choice : String) : RecentAction :=
  if choice = "" then RecentAction.noSelection
  else
    let selectedIndex := (parseLeadingInt choice).getD (-1)
    if selectedIndex < 1 ∨ selectedIndex > (branches.length : Int) then
      RecentAction.invalid
    else RecentAction.checkout (branches.getD (selectedIndex - 1).toNat "")

/-- Outcome of the main dispatcher (brk.go lines 11-56). -/
inductive MainOutcome
  | repoError
  | help
  | cherryUsage
  | dispatched (command : String) (args : List String)
  | unknown (command : String)
deriving DecidableEq, Repr

/-- The command names of the dispatch switch. -/
def knownCommands : List String :=
  ["update", "refresh", "rehydrate", "split", "push", "mv", "cleanup",
   "hide", "pack", "recent", "shove", "status", "cherry-log"]

/-- The main dispatcher: checkGitRepo runs first on every invocation
(exiting with the repository error when the directory is not inside a work
tree, modelled by `inRepo`); only then is the argument count examined, the
no-argument help printed, and the command dispatched. `argv` models
os.Args, program name included. -/
def mainFlow (inRepo : Bool) (argv : List String) : MainOutcome :=
  if !inRepo then MainOutcome.repoError
  else if argv.length < 2 then MainOutcome.help
  else
    let command := argv.getD 1 ""
    let args := argv.drop 2
    if knownCommands.contains command then
      if command = "cherry-log" ∧ args.length < 1 then MainOutcome.cherryUsage
      else MainOutcome.dispatched command args
    else MainOutcome.unknown command

/-- A concrete one-line-log oracle used by witnesses: every hash resolves
to a summary line derived from it. -/
def demoLog (commitHash : String) : Option String :=
  some (commitHash ++ " some subject")

/-- A concrete five-element branch list used by witnesses. -/
def demoBranches : List String := ["b1", "b2", "b3", "b4", "b5"]

/-- Splitting never yields an empty list, whatever the accumulator. -/
theorem splitChAux_length (sep : Char) :
    ∀ (cs acc : List Char), 1 ≤ (splitChAux sep cs acc).length
  | [], _ => by simp [splitChAux]
  | c :: cs, acc => by
      by_cases h : c = sep
      · simp [splitChAux, h]
      · simpa [splitChAux, h] using splitChAux_length sep cs (c :: acc)

/-- The attempted commands of a concatenation of event logs. -/
theorem attempted_append (a b : List ExecEvent) :
    attempted (a ++ b) = attempted a ++ attempted b := by
  induction a with
  | nil => rfl
  | cons e es ih =>
      cases e <;> simp [attempted, List.foldr_cons] <;>
        simpa [attempted] using ih

/-- Whether or not the command fails, execute attempts exactly it. -/
theorem attempted_execute (fail : String → Bool) (command : String) :
    attempted (execute fail command) = [command] := by
  by_cases h : fail command <;> simp [execute, h, attempted]

/-- Claim C6: for every branch name and remote name (with flag defaults
"master" and "origin" when unspecified), the update handler attempts
exactly three shell commands, in order, checkout of the branch, fetch of
the remote, and rebase onto remote/branch, and each command is attempted
whatever the failure behaviour of the earlier commands. -/
theorem claim6_update_three_commands (fail : String → Bool)
    (branchName remoteName : String) :
    attempted (update fail branchName remoteName) =
      ["git checkout " ++ branchName, "git fetch " ++ remoteName,
       "git rebase " ++ remoteName ++ "/" ++ branchName] ∧
    updateCmd fail none none = update fail "master" "origin" := by
  constructor
  · simp [update, attempted_append, attempted_execute]
  · rfl

/-- Claim C7: split with an empty branch name reports the usage error and
attempts zero shell commands; with a non-empty name it attempts exactly
one shell command creating that branch, whatever the failure behaviour. -/
theorem claim7_split_empty_name (fail : String → Bool) (branchName : String) :
    split fail "" = { usageError := true, events := [] } ∧
    (branchName ≠ "" →
      (split fail branchName).usageError = false ∧
      attempted (split fail branchName).events =
        ["git checkout -b " ++ branchName]) := by
  refine ⟨rfl, fun h => ?_⟩
  simp [split, h, attempted_execute]

/-- Witness for claim C7 at the concrete branch name "topic". -/
theorem claim7_split_empty_name_witness :
    split (fun _ => false) "" = { usageError := true, events := [] } ∧
    (split (fun _ => false) "topic").usageError = false ∧
    attempted (split (fun _ => false) "topic").events =
      ["git checkout -b " ++ "topic"] :=
  ⟨(claim7_split_empty_name (fun _ => false) "topic").1,
   ((claim7_split_empty_name (fun _ => false) "topic").2 (by decide)).1,
   ((claim7_split_empty_name (fun _ => false) "topic").2 (by decide)).2⟩

/-- Claim C8: mv with exactly one positional argument and neither name
flag set issues the single rename command from the current branch's name
to that argument. -/
theorem claim8_mv_single_positional (current a : String)
    (hc : current ≠ "") (ha : a ≠ "") :
    renameBranch current "" "" [a] =
      MvOutcome.run ("git branch -m " ++ current ++ " " ++ a) := by
  simp [renameBranch, mvFinish, hc, ha]

/-- Witness for claim C8 at current branch "main" and argument "feature". -/
theorem claim8_mv_single_positional_witness :
    renameBranch "main" "" "" ["feature"] =
      MvOutcome.run ("git branch -m " ++ "main" ++ " " ++ "feature") :=
  claim8_mv_single_positional "main" "feature" (by decide) (by decide)

/-- Claim C1: the cherry output lines are processed strictly in input
order (the loop's events are the per-line events concatenated in order); a
line with fewer than two whitespace-separated fields produces nothing,
silently; a well-formed line with first field "+" renders exactly one
plain entry "[!master] " followed by the commit's one-line log, and one
with first field "-" renders exactly one dimmed entry "[master] "
followed by the commit's one-line log. -/
theorem claim1_cherry_classifier (log : String → Option String)
    (lines : List String) :
    cherryEvents log lines =
      lines.foldr (fun line acc => processLine log line ++ acc) [] ∧
    (∀ line, (goFields line).length < 2 → processLine log line = []) ∧
    (∀ line sign commitHash rest logOutput,
      goFields line = sign :: commitHash :: rest →
      log commitHash = some logOutput →
      (sign = "+" → processLine log line =
          [CherryEvent.logCall commitHash,
           CherryEvent.renderPlain ("[!master] " ++ trimSpace logOutput)]) ∧
      (sign = "-" → processLine log line =
          [CherryEvent.logCall commitHash,
           CherryEvent.renderGrey ("[master] " ++ trimSpace logOutput)])) := by
  refine ⟨?_, ?_, ?_⟩
  · induction lines with
    | nil => rfl
    | cons l ls ih => simp [cherryEvents, ih]
  · intro line hlen
    unfold processLine
    cases hf : goFields line with
    | nil => simp
    | cons a t =>
        cases t with
        | nil => simp
        | cons b t2 =>
            rw [hf] at hlen
            simp at hlen
            omega
  · intro line sign commitHash rest logOutput hf hm
    constructor
    · intro hs
      simp [processLine, hf, hm, hs]
    · intro hs
      simp [processLine, hf, hm, hs]

/-- Witness for claim C1 on the lines "+ abc123", "- def456" and
"garbage". -/
theorem claim1_cherry_classifier_witness :
    processLine demoLog "+ abc123" =
      [CherryEvent.logCall "abc123",
       CherryEvent.renderPlain ("[!master] " ++ trimSpace "abc123 some subject")] ∧
    processLine demoLog "- def456" =
      [CherryEvent.logCall "def456",
       CherryEvent.renderGrey ("[master] " ++ trimSpace "def456 some subject")] ∧
    processLine demoLog "garbage" = [] :=
  ⟨((claim1_cherry_classifier demoLog []).2.2 "+ abc123" "+" "abc123" []
      "abc123 some subject" (by decide) (by decide)).1 rfl,
   ((claim1_cherry_classifier demoLog []).2.2 "- def456" "-" "def456" []
      "def456 some subject" (by decide) (by decide)).2 rfl,
   (claim1_cherry_classifier demoLog []).2.1 "garbage" (by decide)⟩

/-- Claim C2 is false of the code: the cleanup loop binds its age string
to the SECOND whitespace field of the branch line only, which for git's
relative dates is the leading number, so a branch aged "3 months ago" --
whose age contains "month" -- is never prompted. The help text ("Cleanup
branches older than 1 month") shows the prompt was intended to fire for
such branches. -/
theorem claim2_cleanup_age_bug :
    goContains "3 months ago" "month" = true ∧
    goFields "mybranch 3 months ago" = ["mybranch", "3", "months", "ago"] ∧
    cleanup "mybranch 3 months ago" = [] :=
  ⟨by decide, by decide, by decide⟩

/-- Claim C3 is false of the code: on empty cherry output the split of the
trimmed empty string yields the one-element list holding the empty string,
so the length-zero guard never fires; cherryLog prints the header and an
empty listing instead of the "No unique commits found" message. -/
theorem claim3_empty_cherry_bug :
    goSplitCh (trimSpace "") '\n' = [""] ∧
    cherryLog demoLog "" = CherryOutcome.listing [] :=
  ⟨by decide, by decide⟩

/-- Counterexample to claim C4: invoked with no arguments outside a work
tree, the program performs the repository check and exits with the
repository error, rather than reaching the help path unchecked. -/
theorem claim4_counterexample :
    mainFlow false ["brk"] = MainOutcome.repoError := by decide

/-- Claim C4 as amended: the repository check runs first on every
invocation, the no-argument help path included; outside a work tree every
invocation ends in the repository error, and inside a work tree the
no-argument invocation prints the help text. -/
theorem claim4_repo_check_first :
    (∀ argv : List String, mainFlow false argv = MainOutcome.repoError) ∧
    (∀ argv : List String, argv.length < 2 →
      mainFlow true argv = MainOutcome.help) := by
  constructor
  · intro argv; rfl
  · intro argv h; simp [mainFlow, h]

/-- Witness for the amended claim C4. -/
theorem claim4_repo_check_first_witness :
    mainFlow false ["brk", "update"] = MainOutcome.repoError ∧
    mainFlow true ["brk"] = MainOutcome.help :=
  ⟨claim4_repo_check_first.1 ["brk", "update"],
   claim4_repo_check_first.2 ["brk"] (by decide)⟩

/-- The scanned value of the concrete choice "3". -/
theorem parseLeadingInt_three : parseLeadingInt "3" = some 3 := by decide

/-- The scanned value of the concrete choice "9". -/
theorem parseLeadingInt_nine : parseLeadingInt "9" = some 9 := by decide

/-- The scan of the concrete choice "abc" fails. -/
theorem parseLeadingInt_abc : parseLeadingInt "abc" = none := by decide

/-- Claim C5: against a five-item branch list, choice "3" checks out
exactly the third (1-based) item, while "9", "" and "abc" check nothing
out ("" reports no selection, the others an invalid selection); and any
checkout the picker ever performs is of an element of the list, so the
index used is within bounds. -/
theorem claim5_recent_selection (branches : List String)
    (h5 : branches.length = 5) :
    recentSelect branches "3" = RecentAction.checkout (branches.getD 2 "") ∧
    recentSelect branches "9" = RecentAction.invalid ∧
    recentSelect branches "" = RecentAction.noSelection ∧
    recentSelect branches "abc" = RecentAction.invalid ∧
    (∀ choice b, recentSelect branches choice = RecentAction.checkout b →
      b ∈ branches) := by
  refine ⟨?_, ?_, rfl, ?_, ?_⟩
  · rw [recentSelect]
    rw [if_neg (by decide)]
    rw [parseLeadingInt_three]
    rw [if_neg (by rw [h5]; decide)]
    have h2 : (((some (3 : Int)).getD (-1)) - 1).toNat = 2 := by decide
    rw [h2]
  · rw [recentSelect]
    rw [if_neg (by decide)]
    rw [parseLeadingInt_nine]
    rw [if_pos (by rw [h5]; decide)]
  · rw [recentSelect]
    rw [if_neg (by decide)]
    rw [parseLeadingInt_abc]
    rw [if_pos (Or.inl (by decide))]
  · intro choice b hcb
    rw [recentSelect] at hcb
    by_cases hc : choice = ""
    · rw [if_pos hc] at hcb; cases hcb
    · rw [if_neg hc] at hcb
      set i : Int := (parseLeadingInt choice).getD (-1) with hidef
      by_cases hrange : i < 1 ∨ i > (branches.length : Int)
      · rw [if_pos hrange] at hcb; cases hcb
      · rw [if_neg hrange] at hcb
        push_neg at hrange
        have hlt : (i - 1).toNat < branches.length := by omega
        have hb : b = branches.getD (i - 1).toNat "" := by
          cases hcb; rfl
        rw [hb, List.getD_eq_getElem branches "" hlt]
        exact List.getElem_mem hlt

/-- Witness for claim C5 on the concrete branch list b1..b5. -/
theorem claim5_recent_selection_witness :
    recentSelect demoBranches "3" = RecentAction.checkout (demoBranches.getD 2 "") ∧
    recentSelect demoBranches "9" = RecentAction.invalid ∧
    recentSelect demoBranches "" = RecentAction.noSelection ∧
    recentSelect demoBranches "abc" = RecentAction.invalid ∧
    "b3" ∈ demoBranches :=
  ⟨(claim5_recent_selection demoBranches (by decide)).1,
   (claim5_recent_selection demoBranches (by decide)).2.1,
   (claim5_recent_selection demoBranches (by decide)).2.2.1,
   (claim5_recent_selection demoBranches (by decide)).2.2.2.1,
   (claim5_recent_selection demoBranches (by decide)).2.2.2.2 "3" "b3" (by decide)⟩

/-- Claim C9: for every output of the branch-listing subprocess, the empty
string included, recent's split produces at least one branch, so the
listing phase always shows at least one numbered entry and the
"No recent branches found." branch is unreachable. -/
theorem claim9_recent_no_branches_unreachable (output : String) :
    ∃ entries, recentListing output = RecentListing.listing entries ∧
      1 ≤ entries.length := by
  have h1 : 1 ≤ (recentBranches output).length :=
    splitChAux_length '\n' (trimSpace output).data []
  refine ⟨(recentBranches output).enum.map (fun p => (p.1 + 1, p.2)), ?_, ?_⟩
  · rw [recentListing, if_neg (by omega)]
  · rw [List.length_map, List.enum_length]
    exact h1

/-- Claim C10: a cherry line with at least two fields whose sign is
neither "+" nor "-" still triggers the one-line-log subprocess call for
its commit hash as the first event, yet renders no listing entry. -/
theorem claim10_unknown_sign_logged (log : String → Option String)
    (line sign commitHash : String) (rest : List String)
    (hf : goFields line = sign :: commitHash :: rest)
    (hp : sign ≠ "+") (hm : sign ≠ "-") :
    (processLine log line).head? = some (CherryEvent.logCall commitHash) ∧
    rendered (processLine log line) = [] := by
  cases hl : log commitHash with
  | none => simp [processLine, hf, hl, rendered]
  | some logOutput => simp [processLine, hf, hl, hp, hm, rendered]

/-- Witness for claim C10 on the line "x abc" with sign "x". -/
theorem claim10_unknown_sign_logged_witness :
    (processLine demoLog "x abc").head? = some (CherryEvent.logCall "abc") ∧
    rendered (processLine demoLog "x abc") = [] :=
  claim10_unknown_sign_logged demoLog "x abc" "x" "abc" []
    (by decide) (by decide) (by decide)

end Brk
